import Mathlib

/-!
Verification development for the zoneminder-loki log shipper
(`src/main.py`).  The Python program polls a MySQL `Logs` table, groups
rows into Loki streams, POSTs them, and persists a checkpoint ("pointer")
file after each successfully shipped batch.

Shallow embedding conventions:
* Database integers are `ℤ`; the fractional `TimeKey` column (a SQL
  `Decimal`) is `ℚ`.
* The `Logs` table is a `List LogRecord`; theorems that depend on the SQL
  `ORDER BY Id ASC` clause take the hypothesis that the list is stored in
  strictly increasing id order, and the `WHERE` clauses become
  order-preserving filters.
* The pointer file is `Option String` (`none` = file absent).  Python
  exceptions become `Option String` error results that abort the rest of
  the control flow, exactly where the Python exception would propagate.
* Two ghost fields instrument the state: `writeLog` records every integer
  value ever written to the pointer file, and `posts` records every
  payload ever POSTed to Loki.  They let theorems speak about the whole
  history of persisted checkpoints and sink calls.
-/

/-- One row of the `Logs` table (see the example dict in
`ZmLokiShipper._handle_rows`). -/
structure LogRecord where
  id : ℤ
  timeKey : ℚ
  component : String
  serverId : ℤ
  pid : ℤ
  level : ℤ
  file : String
  line : ℤ
  message : String
deriving DecidableEq, Repr

/-- `zm_level_name` from `src/main.py`: a match on the ZoneMinder level
constants falling through to `'unknown'`, then an override sending every
`level >= 1` to `'debug'`. -/
def zm_level_name (level : ℤ) : String :=
  let name : String :=
    if level = -5 then "nolog"
    else if level = -4 then "panic"
    else if level = -3 then "fatal"
    else if level = -2 then "error"
    else if level = -1 then "warning"
    else if level = 0 then "info"
    else "unknown"
  if level ≥ 1 then "debug" else name

/-- Python whitespace test used by `str.strip()` (the characters relevant
to this program). -/
def pyIsSpace (c : Char) : Bool :=
  c = ' ' ∨ c = '\t' ∨ c = '\n' ∨ c = '\r'

/-- Python `str.strip()`: drop whitespace from both ends. -/
def pyStrip (s : String) : String :=
  ⟨((s.data.dropWhile pyIsSpace).reverse.dropWhile pyIsSpace).reverse⟩

/-- Value of a decimal digit character, `none` for anything else. -/
def digitVal (c : Char) : Option ℕ :=
  if '0' ≤ c ∧ c ≤ '9' then some (c.toNat - '0'.toNat) else none

/-- Accumulate a decimal numeral; fails on a non-digit. -/
def digitsVal : List Char → ℕ → Option ℕ
  | [], acc => some acc
  | c :: cs, acc =>
    match digitVal c with
    | none => none
    | some d => digitsVal cs (acc * 10 + d)

/-- Python `int(str)` on an already-stripped string: an optional sign
followed by a non-empty run of decimal digits; anything else raises
`ValueError`, modelled as `none`. -/
def pyInt (s : String) : Option ℤ :=
  match s.data with
  | [] => none
  | '-' :: cs =>
    match cs with
    | [] => none
    | _ :: _ => (digitsVal cs 0).map (fun n => -(n : ℤ))
  | '+' :: cs =>
    match cs with
    | [] => none
    | _ :: _ => (digitsVal cs 0).map (fun n => (n : ℤ))
  | cs => (digitsVal cs 0).map (fun n => (n : ℤ))

/-- Python `int()` applied to a `Decimal`/float: truncation toward zero.
For a rational `q` this is `q.num.tdiv q.den`. -/
def pyTrunc (q : ℚ) : ℤ :=
  q.num.tdiv (q.den : ℤ)

/-- The per-record label tuple built in `_handle_rows` (the `labels`
tuple, in its exact order). -/
def labelsOf (r : LogRecord) : List (String × String) :=
  [("component", r.component),
   ("server_id", toString r.serverId),
   ("PID", toString r.pid),
   ("level", zm_level_name r.level),
   ("file", r.file),
   ("line", toString r.line)]

/-- The `[str(int(row['TimeKey']) * 1000000000), row['Message']]` value
appended for each record. -/
def valueOf (r : LogRecord) : String × String :=
  (toString (pyTrunc r.timeKey * 1000000000), r.message)

/-- One entry of the `streams` defaultdict: a label tuple with its ordered
value list. -/
abbrev StreamAcc := List (List (String × String) × List (String × String))

/-- `streams[labels].append(value)` on a `defaultdict(list)`: append to
the existing key's list, or insert a fresh key at the end (Python dicts
preserve insertion order). -/
def addStream (s : StreamAcc) (k : List (String × String))
    (v : String × String) : StreamAcc :=
  match s with
  | [] => [(k, [v])]
  | (k', vs) :: rest =>
    if k' = k then (k', vs ++ [v]) :: rest
    else (k', vs) :: addStream rest k v

/-- The `streams` dict after the `for row in rows` loop of
`_handle_rows`. -/
def buildStreams (rows : List LogRecord) : StreamAcc :=
  rows.foldl (fun s r => addStream s (labelsOf r) (valueOf r)) []

/-- Look up one key's value list in the accumulator (empty if absent). -/
def findVals (s : StreamAcc) (k : List (String × String)) :
    List (String × String) :=
  match s with
  | [] => []
  | (k', vs) :: rest => if k' = k then vs else findVals rest k

/-- The JSON body POSTed to Loki: one `{'stream': dict(keys) | labels,
'values': vals}` entry per distinct label tuple.  The `|` merge appends
the common labels (their names are disjoint from the per-record ones). -/
abbrev LokiData := List (List (String × String) × List (String × String))

/-- Build the POST body from the grouped streams and the common labels. -/
def mkData (common : List (String × String)) (rows : List LogRecord) :
    LokiData :=
  (buildStreams rows).map (fun kv => (kv.1 ++ common, kv.2))

/-- Python `max([x['Id'] for x in rows])`; the program only calls it on
non-empty batches, the `[]` value is junk. -/
def maxId : List LogRecord → ℤ
  | [] => 0
  | r :: rs => (rs.map (fun x => x.id)).foldl max r.id

/-- Outcome of one `requests.Session.post` to Loki: either an HTTP
response with a status code, or a raised transport/timeout exception. -/
inductive SinkBehavior where
  | respond (status : ℕ)
  | fail
deriving DecidableEq, Repr

/-- The mutable state of a `ZmLokiShipper`, plus the ghost history
fields (`writeLog`, `posts`) described in the module docstring. -/
structure Shipper where
  pointer : ℤ
  file : Option String
  batch_size : ℕ
  labels : List (String × String)
  writeLog : List ℤ
  posts : List LokiData
deriving DecidableEq, Repr

/-- `ZmLokiShipper.__init__`: pointer starts at `-1`, `_batch_size = 1`,
common labels are the host plus the static job name; `file` is whatever
the pointer file currently holds. -/
def mkShipper (log_host : String) (file₀ : Option String) : Shipper :=
  { pointer := -1
    file := file₀
    batch_size := 1
    labels := [("host", log_host), ("job", "zoneminder-loki")]
    writeLog := []
    posts := [] }

/-- `_read_pointer`: read the file and parse `int(contents.strip())`;
every exception (absent file, unreadable file, unparseable contents) is
caught and becomes `None`. -/
def read_pointer (file : Option String) : Option ℤ :=
  match file with
  | none => none
  | some s => pyInt (pyStrip s)

/-- `_write_pointer`: overwrite the file with `str(self._pointer)`; the
ghost `writeLog` records the integer written. -/
def write_pointer (sh : Shipper) : Shipper :=
  { sh with
    file := some (toString sh.pointer)
    writeLog := sh.writeLog ++ [sh.pointer] }

/-- `_handle_rows` on one batch: build the grouped payload, POST it
(`_loki_post`), `assert r.status_code == 204`, then — only on success —
set the pointer to the batch's max id and persist it.  A non-204 response
is an `AssertionError`, a transport failure a requests exception; either
aborts before the pointer assignment. -/
def handle_rows (sh : Shipper) (rows : List LogRecord) (b : SinkBehavior) :
    Option String × Shipper :=
  let data := mkData sh.labels rows
  let sh1 := { sh with posts := sh.posts ++ [data] }
  match b with
  | .fail => (some "ConnectionError", sh1)
  | .respond status =>
    if status = 204 then
      let sh2 := { sh1 with pointer := maxId rows }
      (none, write_pointer sh2)
    else
      (some "AssertionError", sh1)

/-- The `while rows := cursor.fetchmany(self._batch_size)` loop: handle
each batch in order, stopping at the first raised exception (which
propagates). -/
def runBatches (b : SinkBehavior) :
    List (List LogRecord) → Shipper → Option String × Shipper
  | [], sh => (none, sh)
  | rows :: rest, sh =>
    match handle_rows sh rows b with
    | (some e, sh1) => (some e, sh1)
    | (none, sh1) => runBatches b rest sh1

/-- Fuel-driven splitting of a result set into `fetchmany n` batches. -/
def chunksAux : ℕ → ℕ → List LogRecord → List (List LogRecord)
  | 0, _, _ => []
  | _ + 1, _, [] => []
  | fuel + 1, n, r :: rs =>
    (r :: rs).take n :: chunksAux fuel n ((r :: rs).drop n)

/-- Split a query result into consecutive batches of size `n` (`n ≥ 1`;
the list's length is enough fuel). -/
def chunks (n : ℕ) (l : List LogRecord) : List (List LogRecord) :=
  chunksAux l.length n l

/-- `SELECT * FROM Logs WHERE Id > pointer ORDER BY Id ASC` — an
order-preserving filter of the id-sorted table. -/
def queryAfter (table : List LogRecord) (ptr : ℤ) : List LogRecord :=
  table.filter (fun r => ptr < r.id)

/-- One iteration of the `while True` polling loop in `run`: execute the
continuation query at the current pointer, then consume it in
`fetchmany`-sized batches. -/
def pollCycle (table : List LogRecord) (b : SinkBehavior) (sh : Shipper) :
    Option String × Shipper :=
  runBatches b (chunks sh.batch_size (queryAfter table sh.pointer)) sh

/-- `SELECT Id FROM Logs ORDER BY Id DESC LIMIT 1` — the table's max id,
`none` when the table is empty (then `row['Id']` raises `TypeError`). -/
def maxIdOfTable : List LogRecord → Option ℤ
  | [] => none
  | r :: rs => some ((rs.map (fun x => x.id)).foldl max r.id)

/-- `_backfill`: look up the current max id and seed the in-memory
pointer with it (not persisted), then fetch and handle every row with
`TimeKey >= threshold` in id order. -/
def backfill (table : List LogRecord) (threshold : ℚ) (b : SinkBehavior)
    (sh : Shipper) : Option String × Shipper :=
  match maxIdOfTable table with
  | none => (some "TypeError", sh)
  | some m =>
    let sh1 := { sh with pointer := m }
    runBatches b
      (chunks sh1.batch_size (table.filter (fun r => threshold ≤ r.timeKey)))
      sh1

/-- The start of `run`: `if pointer := self._read_pointer():` — the
walrus test is Python truthiness, so both a failed read (`None`) and a
parsed value of `0` fall to the `else` branch and run `_backfill`; a
truthy pointer is adopted and immediately written back as a write-access
probe. -/
def startup (table : List LogRecord) (threshold : ℚ) (b : SinkBehavior)
    (sh : Shipper) : Option String × Shipper :=
  match read_pointer sh.file with
  | some p =>
    if p ≠ 0 then
      let sh1 := { sh with pointer := p }
      (none, write_pointer sh1)
    else
      backfill table threshold b sh
  | none => backfill table threshold b sh

/-- `k` iterations of the polling loop; a raised exception propagates and
ends the process. -/
def runCycles (table : List LogRecord) (b : SinkBehavior) :
    ℕ → Shipper → Option String × Shipper
  | 0, sh => (none, sh)
  | n + 1, sh =>
    match pollCycle table b sh with
    | (some e, sh1) => (some e, sh1)
    | (none, sh1) => runCycles table b n sh1

/-- A whole process lifetime: construct the shipper, run the startup
branch of `run` (pointer adoption or backfill), then `k` polling
cycles. -/
def runProcess (table : List LogRecord) (threshold : ℚ) (b : SinkBehavior)
    (k : ℕ) (log_host : String) (file₀ : Option String) :
    Option String × Shipper :=
  match startup table threshold b (mkShipper log_host file₀) with
  | (some e, sh1) => (some e, sh1)
  | (none, sh1) => runCycles table b k sh1

/-- The table (or a batch) is stored in strictly increasing id order, as
guaranteed by `ORDER BY Id ASC` and the strictly increasing primary
key. -/
abbrev IdSorted (l : List LogRecord) : Prop :=
  l.Pairwise (fun a b => a.id < b.id)

/-- The cumulative effect of successfully handling a list of rows one
`fetchmany(1)` batch at a time: each row POSTs one payload, moves the
pointer to its id and persists it.  `runBatches` at batch size one and a
204 sink reduces to this (see `runBatches_singles`). -/
def shipAllFields (sh : Shipper) : List LogRecord → Shipper
  | [] => sh
  | r :: rs =>
    shipAllFields
      { sh with
        pointer := r.id
        file := some (toString r.id)
        writeLog := sh.writeLog ++ [r.id]
        posts := sh.posts ++ [mkData sh.labels [r]] } rs

/-- Invariant tying the persisted-write history to the in-memory pointer:
the write history is non-decreasing and its last entry is at most the
current pointer. -/
def MonoState (sh : Shipper) : Prop :=
  sh.writeLog.Chain' (· ≤ ·) ∧ ∀ x ∈ sh.writeLog.getLast?, x ≤ sh.pointer

/-- Builder for concrete example rows. -/
def exRecord (i : ℤ) (tk : ℚ) (c msg : String) : LogRecord :=
  { id := i, timeKey := tk, component := c, serverId := 0, pid := 1,
    level := 0, file := "f", line := 1, message := msg }

/-- A table whose highest-id row (id 2) has an *older* timestamp than the
lower-id row: ids ascend but `TimeKey` does not. -/
def exTable : List LogRecord :=
  [exRecord 1 100 "a" "m1", exRecord 2 50 "b" "m2"]

/-- The table of the spec's polling scenario: rows 101, 102, 103 with
three distinct label keys. -/
def exTable2 : List LogRecord :=
  [exRecord 101 100 "a" "m101", exRecord 102 100 "b" "m102",
   exRecord 103 100 "c" "m103"]

/-- A shipper that has completed startup with a pointer file containing
`"100"`: pointer adopted and written back. -/
def exShipper100 : Shipper :=
  (startup exTable2 0 (.respond 204) (mkShipper "h" (some "100"))).2

/-- Example record with a fractional timestamp, for the truncation
claim. -/
def exFracRecord : LogRecord := exRecord 5 (mkRat 7 2) "x" "m5"

/-- A batch in which rows 10 and 11 share one label tuple and row 12 has
another, for the grouping claim. -/
def exBatch : List LogRecord :=
  [exRecord 10 1 "a" "x", exRecord 11 1 "a" "y", exRecord 12 1 "b" "z"]

/-! ### Helper lemmas about batching and the success path -/

theorem chunksAux_one (fuel : ℕ) :
    ∀ l : List LogRecord, l.length ≤ fuel →
      chunksAux fuel 1 l = l.map (fun r => [r]) := by
  induction fuel with
  | zero =>
    intro l hl
    cases l with
    | nil => rfl
    | cons a t => simp at hl
  | succ n ih =>
    intro l hl
    cases l with
    | nil => rfl
    | cons a t =>
      simp only [chunksAux, List.take, List.drop, List.map_cons]
      rw [ih t (by simpa using Nat.le_of_succ_le_succ hl)]

theorem chunks_one (l : List LogRecord) :
    chunks 1 l = l.map (fun r => [r]) :=
  chunksAux_one l.length l le_rfl

theorem maxId_singleton (r : LogRecord) : maxId [r] = r.id := rfl

theorem runBatches_singles (rows : List LogRecord) :
    ∀ sh : Shipper,
      runBatches (.respond 204) (rows.map (fun r => [r])) sh =
        (none, shipAllFields sh rows) := by
  induction rows with
  | nil => intro sh; rfl
  | cons r rs ih =>
    intro sh
    rw [List.map_cons]
    show runBatches (.respond 204) (rs.map (fun r => [r])) _ = _
    exact ih _

theorem shipAllFields_labels (rows : List LogRecord) :
    ∀ sh : Shipper, (shipAllFields sh rows).labels = sh.labels := by
  induction rows with
  | nil => intro sh; rfl
  | cons r rs ih => intro sh; rw [shipAllFields, ih]

theorem shipAllFields_batch_size (rows : List LogRecord) :
    ∀ sh : Shipper, (shipAllFields sh rows).batch_size = sh.batch_size := by
  induction rows with
  | nil => intro sh; rfl
  | cons r rs ih => intro sh; rw [shipAllFields, ih]

theorem shipAllFields_writeLog (rows : List LogRecord) :
    ∀ sh : Shipper,
      (shipAllFields sh rows).writeLog =
        sh.writeLog ++ rows.map (fun r => r.id) := by
  induction rows with
  | nil => intro sh; simp [shipAllFields]
  | cons r rs ih =>
    intro sh
    rw [shipAllFields, ih]
    simp

theorem shipAllFields_pointer (rows : List LogRecord) :
    ∀ sh : Shipper,
      (shipAllFields sh rows).pointer =
        rows.foldl (fun _ r => r.id) sh.pointer := by
  induction rows with
  | nil => intro sh; rfl
  | cons r rs ih => intro sh; rw [shipAllFields, ih]; rfl

theorem shipAllFields_file (rows : List LogRecord) :
    ∀ sh : Shipper,
      (shipAllFields sh rows).file =
        rows.foldl (fun _ r => some (toString r.id)) sh.file := by
  induction rows with
  | nil => intro sh; rfl
  | cons r rs ih => intro sh; rw [shipAllFields, ih]; rfl

theorem shipAllFields_posts (rows : List LogRecord) :
    ∀ sh : Shipper,
      (shipAllFields sh rows).posts =
        sh.posts ++ rows.map (fun r => mkData sh.labels [r]) := by
  induction rows with
  | nil => intro sh; simp [shipAllFields]
  | cons r rs ih =>
    intro sh
    rw [shipAllFields, ih]
    simp

theorem foldl_const_last (f : LogRecord → ℤ) (init : ℤ) :
    ∀ l : List LogRecord,
      l.foldl (fun _ r => f r) init = l.getLast?.elim init f := by
  intro l
  induction l generalizing init with
  | nil => rfl
  | cons a t ih =>
    rw [List.foldl_cons, ih]
    cases t with
    | nil => rfl
    | cons b u => rfl

theorem pollCycle_204 (table : List LogRecord) (sh : Shipper)
    (hbs : sh.batch_size = 1) :
    pollCycle table (.respond 204) sh =
      (none, shipAllFields sh (queryAfter table sh.pointer)) := by
  unfold pollCycle
  rw [hbs, chunks_one, runBatches_singles]

theorem backfill_204 (table : List LogRecord) (θ : ℚ) (sh : Shipper)
    (hbs : sh.batch_size = 1) (m : ℤ) (hm : maxIdOfTable table = some m) :
    backfill table θ (.respond 204) sh =
      (none,
        shipAllFields { sh with pointer := m }
          (table.filter (fun r => θ ≤ r.timeKey))) := by
  unfold backfill
  rw [hm]
  show runBatches _ (chunks sh.batch_size _) _ = _
  rw [hbs, chunks_one, runBatches_singles]

theorem queryAfter_mem {table : List LogRecord} {p : ℤ} {r : LogRecord}
    (hr : r ∈ queryAfter table p) : p < r.id := by
  unfold queryAfter at hr
  rw [List.mem_filter] at hr
  simpa using hr.2

theorem queryAfter_sorted {table : List LogRecord} (hs : IdSorted table)
    (p : ℤ) : IdSorted (queryAfter table p) :=
  hs.filter _

theorem shipAllFields_mono (rows : List LogRecord) :
    ∀ sh : Shipper, MonoState sh → IdSorted rows →
      (∀ x ∈ sh.writeLog.getLast?, ∀ r ∈ rows, x ≤ r.id) →
      MonoState (shipAllFields sh rows) := by
  induction rows with
  | nil => intro sh h _ _; exact h
  | cons r rs ih =>
    intro sh h hp hle
    rw [shipAllFields]
    have hlast :
        (sh.writeLog ++ [r.id]).getLast? = some r.id := by
      rw [List.getLast?_append_cons, List.getLast?_singleton]
    refine ih _ ⟨?_, ?_⟩ (List.Pairwise.of_cons hp) ?_
    · rw [List.chain'_append]
      refine ⟨h.1, List.chain'_singleton _, ?_⟩
      intro x hx y hy
      simp only [List.head?_cons, Option.mem_def, Option.some.injEq] at hy
      subst hy
      exact hle x hx r (List.mem_cons_self r rs)
    · intro x hx
      rw [hlast] at hx
      simp only [Option.mem_def, Option.some.injEq] at hx
      subst hx
      exact le_refl _
    · intro x hx r' hr'
      rw [hlast] at hx
      simp only [Option.mem_def, Option.some.injEq] at hx
      subst hx
      have := (List.pairwise_cons.mp hp).1 r' hr'
      exact le_of_lt this

theorem pollCycle_mono {table : List LogRecord} (hs : IdSorted table)
    (sh : Shipper) (hbs : sh.batch_size = 1) (h : MonoState sh) :
    MonoState (pollCycle table (.respond 204) sh).2 := by
  rw [pollCycle_204 table sh hbs]
  refine shipAllFields_mono _ sh h (queryAfter_sorted hs _) ?_
  intro x hx r hr
  exact le_trans (h.2 x hx) (le_of_lt (queryAfter_mem hr))

theorem runCycles_mono {table : List LogRecord} (hs : IdSorted table)
    (k : ℕ) :
    ∀ sh : Shipper, sh.batch_size = 1 → MonoState sh →
      MonoState (runCycles table (.respond 204) k sh).2 := by
  induction k with
  | zero => intro sh _ h; exact h
  | succ n ih =>
    intro sh hbs h
    rw [runCycles, pollCycle_204 table sh hbs]
    exact ih _ (by rw [shipAllFields_batch_size]; exact hbs)
      (by
        have := pollCycle_mono hs sh hbs h
        rwa [pollCycle_204 table sh hbs] at this)

theorem startup_backfill (sh : Shipper)
    (h : read_pointer sh.file = none ∨ read_pointer sh.file = some 0)
    (table : List LogRecord) (θ : ℚ) (b : SinkBehavior) :
    startup table θ b sh = backfill table θ b sh := by
  unfold startup
  rcases h with h | h <;> rw [h]
  simp

theorem startup_truthy {sh : Shipper} {p : ℤ}
    (h : read_pointer sh.file = some p) (hp : p ≠ 0)
    (table : List LogRecord) (θ : ℚ) (b : SinkBehavior) :
    startup table θ b sh = (none, write_pointer { sh with pointer := p }) := by
  unfold startup
  rw [h]
  simp [hp]

theorem runProcess_mono (table : List LogRecord) (θ : ℚ) (k : ℕ)
    (host : String) (file₀ : Option String) (hs : IdSorted table) :
    MonoState (runProcess table θ (.respond 204) k host file₀).2 := by
  have hmk : MonoState (mkShipper host file₀) :=
    ⟨List.chain'_nil, by intro x hx; simp [mkShipper] at hx⟩
  have hbf : ∀ sh : Shipper, sh.writeLog = [] → sh.batch_size = 1 →
      MonoState sh →
      MonoState (backfill table θ (.respond 204) sh).2 ∧
      (backfill table θ (.respond 204) sh).2.batch_size = 1 := by
    intro sh hw hb h
    cases hmax : maxIdOfTable table with
    | none =>
      unfold backfill
      rw [hmax]
      exact ⟨h, hb⟩
    | some m =>
      rw [backfill_204 table θ sh hb m hmax]
      constructor
      · refine shipAllFields_mono _ _ ⟨?_, ?_⟩ (hs.filter _) ?_
        · show List.Chain' _ sh.writeLog
          rw [hw]; exact List.chain'_nil
        · intro x hx
          rw [show ({ sh with pointer := m } : Shipper).writeLog =
            sh.writeLog from rfl, hw] at hx
          simp at hx
        · intro x hx
          rw [show ({ sh with pointer := m } : Shipper).writeLog =
            sh.writeLog from rfl, hw] at hx
          simp at hx
      · rw [shipAllFields_batch_size]; exact hb
  unfold runProcess
  cases hrp : read_pointer (mkShipper host file₀).file with
  | none =>
    rw [startup_backfill _ (Or.inl hrp)]
    obtain ⟨h1, h2⟩ := hbf (mkShipper host file₀) rfl rfl hmk
    cases hb : backfill table θ (.respond 204) (mkShipper host file₀) with
    | mk e sh1 =>
      rw [hb] at h1 h2
      cases e with
      | none => exact runCycles_mono hs k sh1 h2 h1
      | some e => exact h1
  | some p =>
    by_cases hp : p = 0
    · subst hp
      rw [startup_backfill _ (Or.inr hrp)]
      obtain ⟨h1, h2⟩ := hbf (mkShipper host file₀) rfl rfl hmk
      cases hb : backfill table θ (.respond 204) (mkShipper host file₀) with
      | mk e sh1 =>
        rw [hb] at h1 h2
        cases e with
        | none => exact runCycles_mono hs k sh1 h2 h1
        | some e => exact h1
    · rw [startup_truthy hrp hp]
      refine runCycles_mono hs k _ rfl ⟨?_, ?_⟩
      · show List.Chain' _ ([] ++ [p])
        simp
      · intro x hx
        simp only [write_pointer] at hx ⊢
        show x ≤ p
        simp [mkShipper] at hx
        omega

theorem handle_rows_fail (sh : Shipper) (rows : List LogRecord)
    (b : SinkBehavior) (hb : b ≠ .respond 204) :
    ∃ e, handle_rows sh rows b =
      (some e, { sh with posts := sh.posts ++ [mkData sh.labels rows] }) := by
  cases b with
  | fail => exact ⟨"ConnectionError", rfl⟩
  | respond s =>
    have hs : s ≠ 204 := fun h => hb (by rw [h])
    refine ⟨"AssertionError", ?_⟩
    unfold handle_rows
    simp [hs]

theorem runBatches_fail {b : SinkBehavior} (hb : b ≠ .respond 204)
    (bss : List (List LogRecord)) (sh : Shipper) :
    (runBatches b bss sh).2.file = sh.file ∧
    (runBatches b bss sh).2.writeLog = sh.writeLog ∧
    (runBatches b bss sh).2.pointer = sh.pointer := by
  cases bss with
  | nil => exact ⟨rfl, rfl, rfl⟩
  | cons rows rest =>
    obtain ⟨e, he⟩ := handle_rows_fail sh rows b hb
    unfold runBatches
    rw [he]
    exact ⟨rfl, rfl, rfl⟩

/-- **C1**: if shipping a batch fails — non-204 response, transport
failure or timeout — the persisted pointer file, the write history and
the in-memory pointer are all exactly what they were before the attempt,
and the rest of the poll cycle performs no pointer write either: in
`_handle_rows` the `assert r.status_code == 204` in `_loki_post` raises
before `self._pointer = max(...)` and `self._write_pointer()` run. -/
theorem c1_failed_ship_leaves_checkpoint (sh : Shipper)
    (rows table : List LogRecord) (b : SinkBehavior)
    (hb : b ≠ .respond 204) :
    (handle_rows sh rows b).1 ≠ none ∧
    (handle_rows sh rows b).2.file = sh.file ∧
    (handle_rows sh rows b).2.writeLog = sh.writeLog ∧
    (handle_rows sh rows b).2.pointer = sh.pointer ∧
    (pollCycle table b sh).2.file = sh.file ∧
    (pollCycle table b sh).2.writeLog = sh.writeLog := by
  obtain ⟨e, he⟩ := handle_rows_fail sh rows b hb
  obtain ⟨h1, h2, _⟩ :=
    runBatches_fail hb (chunks sh.batch_size (queryAfter table sh.pointer)) sh
  rw [he]
  exact ⟨by simp, rfl, rfl, rfl, h1, h2⟩

/-- Witness for C1 at a concrete failed POST (HTTP 500). -/
theorem c1_failed_ship_leaves_checkpoint_witness :
    (handle_rows (mkShipper "h" none) exTable2 (.respond 500)).1 ≠ none ∧
    (handle_rows (mkShipper "h" none) exTable2 (.respond 500)).2.file =
      (mkShipper "h" none).file ∧
    (handle_rows (mkShipper "h" none) exTable2 (.respond 500)).2.writeLog =
      (mkShipper "h" none).writeLog ∧
    (handle_rows (mkShipper "h" none) exTable2 (.respond 500)).2.pointer =
      (mkShipper "h" none).pointer ∧
    (pollCycle exTable2 (.respond 500) (mkShipper "h" none)).2.file =
      (mkShipper "h" none).file ∧
    (pollCycle exTable2 (.respond 500) (mkShipper "h" none)).2.writeLog =
      (mkShipper "h" none).writeLog :=
  c1_failed_ship_leaves_checkpoint (mkShipper "h" none) exTable2 exTable2
    (.respond 500) (by decide)

/-- **C2**: a batch that ships successfully persists exactly the batch's
maximum id (the pointer file gets `str(max id)` and the write history
gains that value), and over a whole process lifetime — backfill included —
the sequence of persisted checkpoint values is monotonically
non-decreasing. -/
theorem c2_success_sets_checkpoint_and_monotone :
    (∀ (sh : Shipper) (rows : List LogRecord), rows ≠ [] →
        handle_rows sh rows (.respond 204) =
          (none,
            { sh with
              posts := sh.posts ++ [mkData sh.labels rows]
              pointer := maxId rows
              file := some (toString (maxId rows))
              writeLog := sh.writeLog ++ [maxId rows] })) ∧
    (∀ (table : List LogRecord) (θ : ℚ) (k : ℕ) (host : String)
        (file₀ : Option String), IdSorted table →
        ((runProcess table θ (.respond 204) k host file₀).2.writeLog).Chain'
          (· ≤ ·)) := by
  constructor
  · intro sh rows _
    rfl
  · intro table θ k host file₀ hs
    exact (runProcess_mono table θ k host file₀ hs).1

/-- Witness for C2: one concrete successful batch, and a concrete
two-cycle lifetime started from a pointer file containing `"100"`. -/
theorem c2_success_sets_checkpoint_and_monotone_witness :
    handle_rows (mkShipper "h" none) exTable2 (.respond 204) =
      (none,
        { mkShipper "h" none with
          posts := (mkShipper "h" none).posts ++
            [mkData (mkShipper "h" none).labels exTable2]
          pointer := maxId exTable2
          file := some (toString (maxId exTable2))
          writeLog := (mkShipper "h" none).writeLog ++ [maxId exTable2] }) ∧
    ((runProcess exTable2 0 (.respond 204) 2 "h"
        (some "100")).2.writeLog).Chain' (· ≤ ·) :=
  ⟨c2_success_sets_checkpoint_and_monotone.1 (mkShipper "h" none) exTable2
      (by decide),
   c2_success_sets_checkpoint_and_monotone.2 exTable2 0 2 "h" (some "100")
      (by decide)⟩

theorem sorted_le_getLast {l : List LogRecord} (hs : IdSorted l)
    {r : LogRecord} (hr : r ∈ l) (h : l ≠ []) :
    r.id ≤ (l.getLast h).id := by
  induction l with
  | nil => cases hr
  | cons a t ih =>
    cases t with
    | nil =>
      simp only [List.mem_singleton] at hr
      subst hr
      exact le_refl _
    | cons b u =>
      rw [List.getLast_cons (by simp : b :: u ≠ [])]
      rcases List.mem_cons.mp hr with h1 | h1
      · subst h1
        have hmem := List.getLast_mem (by simp : b :: u ≠ [])
        exact le_of_lt ((List.pairwise_cons.mp hs).1 _ hmem)
      · exact ih (List.Pairwise.of_cons hs) h1 (by simp)

/-- **C3 counterexample**: table `[{id 1, timeKey 100}, {id 2, timeKey 50}]`
with backfill threshold 60.  The backfill seed is the max id 2, but the
time-window query selects only row 1, and `_handle_rows` then overwrites
the pointer with that batch's max id: the completed backfill leaves
checkpoint 1 < 2, refuting "upon completion the checkpoint is ≥ the
source's max id observed at backfill start". -/
theorem c3_backfill_counterexample :
    IdSorted exTable ∧
    maxIdOfTable exTable = some 2 ∧
    (startup exTable 60 (.respond 204) (mkShipper "h" none)).1 = none ∧
    (startup exTable 60 (.respond 204) (mkShipper "h" none)).2.pointer = 1 ∧
    (startup exTable 60 (.respond 204) (mkShipper "h" none)).2.writeLog =
      [1] ∧
    ¬(2 ≤ (startup exTable 60 (.respond 204) (mkShipper "h" none)).2.pointer)
    := by
  decide

/-- **C3 amended**: a cold start with no pointer file always enters the
backfill pass.  On completion, if the time window selected zero rows the
checkpoint equals the source's max id observed at backfill start; if the
row carrying that max id falls inside the window, the final checkpoint is
≥ that max id.  (If rows are selected but the max-id row lies outside the
window, the final checkpoint is the max id of the *selected* rows, which
can be smaller — see the counterexample.) -/
theorem c3_backfill_amended (table : List LogRecord) (θ : ℚ) (host : String)
    (hs : IdSorted table) :
    startup table θ (.respond 204) (mkShipper host none) =
      backfill table θ (.respond 204) (mkShipper host none) ∧
    ∀ m, maxIdOfTable table = some m →
      (backfill table θ (.respond 204) (mkShipper host none)).1 = none ∧
      (table.filter (fun r => θ ≤ r.timeKey) = [] →
        (backfill table θ (.respond 204) (mkShipper host none)).2.pointer =
          m) ∧
      ((∃ r ∈ table, r.id = m ∧ θ ≤ r.timeKey) →
        m ≤ (backfill table θ (.respond 204)
          (mkShipper host none)).2.pointer) := by
  refine ⟨startup_backfill (mkShipper host none) (Or.inl rfl) table θ _,
    ?_⟩
  intro m hm
  rw [backfill_204 table θ (mkShipper host none) rfl m hm]
  refine ⟨rfl, ?_, ?_⟩
  · intro hw
    rw [shipAllFields_pointer, hw]
    rfl
  · rintro ⟨r, hrt, hrid, hrw⟩
    have hrmem : r ∈ table.filter (fun r => θ ≤ r.timeKey) := by
      rw [List.mem_filter]
      exact ⟨hrt, by simpa using hrw⟩
    have hne : table.filter (fun r => θ ≤ r.timeKey) ≠ [] :=
      List.ne_nil_of_mem hrmem
    rw [shipAllFields_pointer, foldl_const_last,
      List.getLast?_eq_getLast _ hne]
    subst hrid
    exact sorted_le_getLast (hs.filter _) hrmem hne

/-- Witness for C3 (amended) at a table whose max-id row lies inside the
backfill window. -/
theorem c3_backfill_amended_witness :
    103 ≤ (backfill exTable2 0 (.respond 204) (mkShipper "h" none)).2.pointer
    :=
  ((c3_backfill_amended exTable2 0 "h" (by decide)).2 103 (by decide)).2.2
    ⟨exRecord 103 100 "c" "m103", by decide, by decide, by decide⟩

/-- **C4 counterexample**: with the pointer file present but holding
`"abc"`, `_read_pointer` catches the `ValueError` and returns `None`, so
startup raises no error and runs exactly the same backfill as with an
absent file — it is not fatal, refuting "a present but unreadable
checkpoint file is a fatal error that terminates the process". -/
theorem c4_unreadable_pointer_counterexample :
    read_pointer (some "abc") = none ∧
    (startup exTable 60 (.respond 204) (mkShipper "h" (some "abc"))).1 =
      none ∧
    startup exTable 60 (.respond 204) (mkShipper "h" (some "abc")) =
      startup exTable 60 (.respond 204) (mkShipper "h" none) := by
  decide

/-- **C4 amended**: a present checkpoint file whose contents do not parse
as an integer is treated exactly like an absent file: the read error is
caught inside `_read_pointer`, and the controller enters Backfilling
instead of terminating. -/
theorem c4_unreadable_pointer_amended (s : String) (table : List LogRecord)
    (θ : ℚ) (b : SinkBehavior) (host : String)
    (h : pyInt (pyStrip s) = none) :
    read_pointer (some s) = none ∧
    startup table θ b (mkShipper host (some s)) =
      backfill table θ b (mkShipper host (some s)) := by
  have hr : read_pointer (some s) = none := h
  exact ⟨hr,
    startup_backfill (mkShipper host (some s)) (Or.inl hr) table θ b⟩

/-- Witness for C4 (amended) at the concrete unparseable contents
`"xyz"`. -/
theorem c4_unreadable_pointer_amended_witness :
    read_pointer (some "xyz") = none ∧
    startup exTable2 0 (.respond 204) (mkShipper "h" (some "xyz")) =
      backfill exTable2 0 (.respond 204) (mkShipper "h" (some "xyz")) :=
  c4_unreadable_pointer_amended "xyz" exTable2 0 (.respond 204) "h"
    (by decide)

/-- **C5 counterexample**: checkpoint file `"100"`, rows 101..103, sink
answers 500.  The `AssertionError` raised in `_loki_post` propagates out
of the polling loop (no handler exists in `run`), so asking for five more
cycles performs no further work: only one POST is ever attempted and the
error reaches the top level, i.e. the process does *not* keep running and
there is no in-process retry on the next cycle.  (The checkpoint does
stay at 100, that part holds.) -/
theorem c5_sink_error_counterexample :
    (runCycles exTable2 (.respond 500) 5 exShipper100).1 =
      some "AssertionError" ∧
    (runCycles exTable2 (.respond 500) 5 exShipper100).2.posts.length = 1 ∧
    (runCycles exTable2 (.respond 500) 5 exShipper100).2.file =
      some "100" ∧
    (runCycles exTable2 (.respond 500) 5 exShipper100).2.pointer = 100 := by
  decide

/-- **C5 amended**: a sink error leaves the persisted checkpoint, the
write history and the pointer unmoved, and the assertion failure
propagates out of the poll cycle, terminating the process after exactly
one attempted POST of the first batch; because the checkpoint did not
move, the rows that would be fetched afterwards are identical, so the
same batch is re-delivered once the process is restarted. -/
theorem c5_sink_error_amended (table : List LogRecord) (sh : Shipper)
    (b : SinkBehavior) (hb : b ≠ .respond 204) (hbs : sh.batch_size = 1)
    (hne : queryAfter table sh.pointer ≠ []) :
    (pollCycle table b sh).1 ≠ none ∧
    (pollCycle table b sh).2.file = sh.file ∧
    (pollCycle table b sh).2.writeLog = sh.writeLog ∧
    (pollCycle table b sh).2.pointer = sh.pointer ∧
    (pollCycle table b sh).2.posts =
      sh.posts ++
        [mkData sh.labels ((queryAfter table sh.pointer).take 1)] ∧
    queryAfter table (pollCycle table b sh).2.pointer =
      queryAfter table sh.pointer := by
  obtain ⟨r, rs, hrw⟩ := List.exists_cons_of_ne_nil hne
  obtain ⟨e, he⟩ := handle_rows_fail sh [r] b hb
  have hchunks : chunks sh.batch_size (queryAfter table sh.pointer) =
      [r] :: rs.map (fun r => [r]) := by
    rw [hbs, chunks_one, hrw, List.map_cons]
  have hpoll : pollCycle table b sh =
      (some e, { sh with posts := sh.posts ++ [mkData sh.labels [r]] }) := by
    unfold pollCycle
    rw [hchunks]
    unfold runBatches
    rw [he]
  rw [hpoll, hrw]
  exact ⟨by simp, rfl, rfl, rfl, rfl, rfl⟩

/-- Witness for C5 (amended) at the concrete 500-response scenario. -/
theorem c5_sink_error_amended_witness :
    (pollCycle exTable2 (.respond 500) exShipper100).1 ≠ none ∧
    (pollCycle exTable2 (.respond 500) exShipper100).2.file =
      exShipper100.file :=
  ⟨(c5_sink_error_amended exTable2 exShipper100 (.respond 500) (by decide)
      (by decide) (by decide)).1,
   (c5_sink_error_amended exTable2 exShipper100 (.respond 500) (by decide)
      (by decide) (by decide)).2.1⟩

/-- **C6 counterexample**: with `_batch_size = 1` (line 123), the poll
cycle over rows 101, 102, 103 performs three `fetchmany(1)` batches and
therefore three Loki POSTs of one stream group each, refuting "one poll
cycle sends exactly one sink payload containing three stream groups". -/
theorem c6_scenario_counterexample :
    (pollCycle exTable2 (.respond 204) exShipper100).2.posts.length = 3 ∧
    ¬((pollCycle exTable2 (.respond 204) exShipper100).2.posts.length = 1)
    := by
  decide

/-- **C6 amended**: checkpoint file `"100"`, source rows 101, 102, 103
with distinct label keys.  One poll cycle ships *three* sink payloads,
each containing exactly one stream group, and afterwards the persisted
checkpoint is `103` (write history 100 — the startup write-back — then
101, 102, 103). -/
theorem c6_scenario_amended :
    exShipper100.pointer = 100 ∧
    (pollCycle exTable2 (.respond 204) exShipper100).1 = none ∧
    (pollCycle exTable2 (.respond 204) exShipper100).2.posts.map
      List.length = [1, 1, 1] ∧
    (pollCycle exTable2 (.respond 204) exShipper100).2.pointer = 103 ∧
    (pollCycle exTable2 (.respond 204) exShipper100).2.file = some "103" ∧
    (pollCycle exTable2 (.respond 204) exShipper100).2.writeLog =
      [100, 101, 102, 103] := by
  decide

/-- **C7 counterexample**: `zm_level_name (-6)` is `"unknown"` — below
the defined table floor the function returns `"unknown"`, not the lowest
defined category (`"nolog"`) and not a debug category. -/
theorem c7_level_floor_counterexample :
    zm_level_name (-6) = "unknown" ∧ zm_level_name (-6) ≠ "nolog" ∧
    zm_level_name (-6) ≠ "debug" := by
  decide

/-- **C7 amended**: the level mapping sends 0 to "info", -1 to
"warning", -2 to "error", -3 to "fatal", -4 to "panic", -5 to "nolog",
every level ≥ 1 to "debug", and every value below the table floor (-5)
to "unknown" (not to the lowest defined category). -/
theorem c7_level_map_amended :
    zm_level_name 0 = "info" ∧ zm_level_name (-1) = "warning" ∧
    zm_level_name (-2) = "error" ∧ zm_level_name (-3) = "fatal" ∧
    zm_level_name (-4) = "panic" ∧ zm_level_name (-5) = "nolog" ∧
    (∀ l : ℤ, 1 ≤ l → zm_level_name l = "debug") ∧
    (∀ l : ℤ, l < -5 → zm_level_name l = "unknown") := by
  refine ⟨by decide, by decide, by decide, by decide, by decide, by decide,
    ?_, ?_⟩
  · intro l hl
    unfold zm_level_name
    split_ifs with h <;> first | rfl | omega
  · intro l hl
    unfold zm_level_name
    split_ifs <;> first | rfl | omega

/-- Witness for C7 (amended): a debug level and a below-floor level. -/
theorem c7_level_map_amended_witness :
    zm_level_name 7 = "debug" ∧ zm_level_name (-9) = "unknown" :=
  ⟨c7_level_map_amended.2.2.2.2.2.2.1 7 (by decide),
   c7_level_map_amended.2.2.2.2.2.2.2 (-9) (by decide)⟩

/-! ### Helper lemmas about stream grouping -/

theorem findVals_addStream (s : StreamAcc) (k k' : List (String × String))
    (v : String × String) :
    findVals (addStream s k' v) k =
      if k' = k then findVals s k ++ [v] else findVals s k := by
  induction s with
  | nil =>
    by_cases h : k' = k <;> simp [addStream, findVals, h]
  | cons p rest ih =>
    obtain ⟨k₀, vs⟩ := p
    by_cases h0 : k₀ = k'
    · subst h0
      by_cases hk : k₀ = k
      · subst hk
        simp [addStream, findVals]
      · simp [addStream, findVals, hk]
    · by_cases hk : k₀ = k
      · subst hk
        have hk' : k' ≠ k₀ := fun h => h0 h.symm
        simp [addStream, findVals, h0, hk']
      · simp [addStream, findVals, h0, hk, ih]

theorem foldl_addStream_findVals (rows : List LogRecord) :
    ∀ (acc : StreamAcc) (k : List (String × String)),
      findVals
          (rows.foldl (fun s r => addStream s (labelsOf r) (valueOf r)) acc)
          k =
        findVals acc k ++
          (rows.filter (fun r => labelsOf r = k)).map valueOf := by
  induction rows with
  | nil => intro acc k; simp
  | cons r rs ih =>
    intro acc k
    rw [List.foldl_cons, ih, findVals_addStream]
    by_cases h : labelsOf r = k
    · rw [if_pos h]
      simp [List.filter_cons, h]
    · rw [if_neg h]
      simp [List.filter_cons, h]

theorem buildStreams_findVals (rows : List LogRecord)
    (k : List (String × String)) :
    findVals (buildStreams rows) k =
      (rows.filter (fun r => labelsOf r = k)).map valueOf := by
  have h := foldl_addStream_findVals rows [] k
  simpa [buildStreams, findVals] using h

theorem addStream_keys (s : StreamAcc) (k : List (String × String))
    (v : String × String) :
    (addStream s k v).map Prod.fst =
      if k ∈ s.map Prod.fst then s.map Prod.fst
      else s.map Prod.fst ++ [k] := by
  induction s with
  | nil => simp [addStream]
  | cons p rest ih =>
    obtain ⟨k₀, vs⟩ := p
    by_cases h : k₀ = k
    · subst h
      simp [addStream]
    · have hk : k ≠ k₀ := fun hx => h hx.symm
      by_cases hm : k ∈ rest.map Prod.fst <;>
        simp [addStream, h, hk, hm, ih]

theorem addStream_keys_nodup (s : StreamAcc) (k : List (String × String))
    (v : String × String) (h : (s.map Prod.fst).Nodup) :
    ((addStream s k v).map Prod.fst).Nodup := by
  rw [addStream_keys]
  by_cases hm : k ∈ s.map Prod.fst
  · rwa [if_pos hm]
  · rw [if_neg hm]
    simp [List.nodup_append, h, hm]

theorem foldl_addStream_keys_nodup (rows : List LogRecord) :
    ∀ acc : StreamAcc, (acc.map Prod.fst).Nodup →
      ((rows.foldl (fun s r => addStream s (labelsOf r) (valueOf r))
          acc).map Prod.fst).Nodup := by
  induction rows with
  | nil => intro acc h; exact h
  | cons r rs ih =>
    intro acc h
    rw [List.foldl_cons]
    exact ih _ (addStream_keys_nodup _ _ _ h)

theorem pyTrunc_floor_bounds (q : ℚ) (hq : 0 ≤ q) :
    (pyTrunc q : ℚ) ≤ q ∧ q < pyTrunc q + 1 := by
  obtain ⟨t, ht⟩ : ∃ t, pyTrunc q = t := ⟨_, rfl⟩
  rw [ht]
  unfold pyTrunc at ht
  have hden : (0 : ℤ) < (q.den : ℤ) := by exact_mod_cast q.pos
  have hnum : 0 ≤ q.num := Rat.num_nonneg.mpr hq
  have key : (q.den : ℤ) * t + q.num.tmod q.den = q.num := by
    rw [← ht]; exact Int.tdiv_add_tmod _ _
  have hm0 : 0 ≤ q.num.tmod q.den := Int.tmod_nonneg _ hnum
  have hml : q.num.tmod q.den < (q.den : ℤ) := Int.tmod_lt_of_pos _ hden
  have hdenQ : (0 : ℚ) < (q.den : ℚ) := by exact_mod_cast hden
  constructor
  · rw [← Rat.num_div_den q, le_div_iff hdenQ]
    have h1 : t * (q.den : ℤ) ≤ q.num := by nlinarith [key, hm0]
    exact_mod_cast h1
  · rw [← Rat.num_div_den q, div_lt_iff hdenQ]
    have h2 : q.num < (t + 1) * (q.den : ℤ) := by nlinarith [key, hml]
    exact_mod_cast h2

/-- **C8**: for every record of a batch, the value shipped for it is the
pair `(str(int(timeKey) * 10^9), message)` — the fractional `timeKey`
truncated (not rounded) to whole seconds, multiplied by 10⁹ and rendered
as a decimal string — and it appears in the group addressed by the
record's label tuple.  The bounds `trunc ≤ t < trunc + 1` pin the
truncation semantics for the non-negative Unix timestamps involved:
sub-second precision is discarded. -/
theorem c8_timestamp_truncation (rows : List LogRecord) (r : LogRecord)
    (hr : r ∈ rows) (hq : 0 ≤ r.timeKey) :
    valueOf r ∈ findVals (buildStreams rows) (labelsOf r) ∧
    valueOf r = (toString (pyTrunc r.timeKey * 1000000000), r.message) ∧
    (pyTrunc r.timeKey : ℚ) ≤ r.timeKey ∧
    r.timeKey < pyTrunc r.timeKey + 1 := by
  obtain ⟨h1, h2⟩ := pyTrunc_floor_bounds r.timeKey hq
  refine ⟨?_, rfl, h1, h2⟩
  rw [buildStreams_findVals]
  exact List.mem_map_of_mem valueOf
    (by rw [List.mem_filter]; exact ⟨hr, by simp⟩)

/-- Witness for C8 at the concrete record with `timeKey = 7/2`: the
shipped timestamp is `"3000000000"` (3 whole seconds, truncated). -/
theorem c8_timestamp_truncation_witness :
    valueOf exFracRecord ∈
      findVals (buildStreams [exFracRecord]) (labelsOf exFracRecord) ∧
    valueOf exFracRecord =
      (toString (pyTrunc exFracRecord.timeKey * 1000000000),
        exFracRecord.message) ∧
    (pyTrunc exFracRecord.timeKey : ℚ) ≤ exFracRecord.timeKey ∧
    exFracRecord.timeKey < pyTrunc exFracRecord.timeKey + 1 :=
  c8_timestamp_truncation [exFracRecord] exFracRecord (by decide)
    (by decide)

/-- **C9**: within one batch, the label keys of the grouped streams are
pairwise distinct (each label tuple owns exactly one group); the value
list of the group for key `k` is precisely the batch's rows with that
label tuple, in batch order, mapped to their (timestamp, message) pairs;
and for an id-sorted batch that order is the original id order. -/
theorem c9_grouping_order (rows : List LogRecord)
    (k : List (String × String)) (hs : IdSorted rows) :
    ((buildStreams rows).map Prod.fst).Nodup ∧
    findVals (buildStreams rows) k =
      (rows.filter (fun r => labelsOf r = k)).map valueOf ∧
    IdSorted (rows.filter (fun r => labelsOf r = k)) :=
  ⟨foldl_addStream_keys_nodup rows [] (by simp),
   buildStreams_findVals rows k,
   hs.filter _⟩

/-- Witness for C9 on a batch where rows 10 and 11 share one label tuple
and row 12 has a different one. -/
theorem c9_grouping_order_witness :
    ((buildStreams exBatch).map Prod.fst).Nodup ∧
    findVals (buildStreams exBatch) (labelsOf (exRecord 10 1 "a" "x")) =
      (exBatch.filter
        (fun r => labelsOf r = labelsOf (exRecord 10 1 "a" "x"))).map
        valueOf ∧
    IdSorted (exBatch.filter
      (fun r => labelsOf r = labelsOf (exRecord 10 1 "a" "x"))) :=
  c9_grouping_order exBatch (labelsOf (exRecord 10 1 "a" "x")) (by decide)

/-- **C10**: a pointer file containing the decimal string `"0"` parses to
`0`, which is falsy in the walrus test `if pointer := self._read_pointer():`,
so startup behaves exactly as with an absent file and runs `_backfill`
instead of polling from position 0. -/
theorem c10_zero_pointer_backfills (table : List LogRecord) (θ : ℚ)
    (b : SinkBehavior) (host : String) :
    read_pointer (some "0") = some 0 ∧
    startup table θ b (mkShipper host (some "0")) =
      backfill table θ b (mkShipper host (some "0")) := by
  have h0 : read_pointer (some "0") = some 0 := by decide
  exact ⟨h0,
    startup_backfill (mkShipper host (some "0")) (Or.inr h0) table θ b⟩
